import Mathlib

/-!
Shallow embedding of the StockMarket dashboard backend (script.js).

The program is a single in-memory `QuantumMLDashboard` object (mutable fields
`priceChartData`, `currentData`, `isLoading`, `lastPrediction`), an Express
route layer, a WebSocket broadcast layer, and a 30-second timer driving
`simulatePriceUpdate`.

Modelling conventions:
- JS numbers are embedded as `ℚ`; `toFixed(n)` (which returns a decimal
  string in JS) is embedded as rounding to `n` decimal places.
- `Math.random()` calls become explicit rational parameters, constrained to
  `[0,1)` where a proof needs the range.
- Timestamps (`Date`/ISO strings) are embedded as integers.
- The single-threaded JS event loop is embedded as a sequence of atomic
  steps: `loadDashboardData` runs synchronously to completion (its body has
  no await); `runPrediction` splits into its synchronous prefix
  (`runPredictionStart`: busy check, flag set, `predictionStarted` emit,
  timer registration) and the timer firing (`completePrediction`: the
  `setTimeout` callback of `simulatePrediction` plus `runPrediction`'s
  `finally` block, which run back-to-back with no interleaving point).
- `ℚ` division by zero yields 0 where JS yields NaN; the only place this
  matters is the probability normalization at `total = 0`, where under both
  semantics the normalized probabilities fail to sum to 100.
-/

/-- One entry of `priceChartData` / `historicalPrices`:
`{ timestamp, price }` objects pushed by the program. -/
structure PricePoint where
  timestamp : ℤ
  price : ℚ
deriving DecidableEq

/-- `direction: Math.random() > 0.5 ? 'UP' : 'DOWN'` (script.js line 67). -/
inductive Direction where
  | UP
  | DOWN
deriving DecidableEq

/-- `['random_forest','hybrid','svm']` (script.js line 73). -/
inductive ModelName where
  | random_forest
  | hybrid
  | svm
deriving DecidableEq

/-- The per-model metrics records of `mockData.models` (lines 31-33); the
JS fields are `accuracy`, `precision` and `recall` (the latter two renamed
here because they collide with reserved words). -/
structure ModelMetrics where
  accuracy : ℚ
  precisionScore : ℚ
  recallScore : ℚ
deriving DecidableEq

/-- The `models` object of `mockData` (lines 30-34). -/
structure ModelsInfo where
  randomForest : ModelMetrics
  hybrid : ModelMetrics
  svm : ModelMetrics
deriving DecidableEq

/-- `prediction.probabilities` (lines 69-72). -/
structure Probabilities where
  up : ℚ
  down : ℚ
deriving DecidableEq

/-- The prediction object built in `simulatePrediction` (lines 66-75). -/
structure Prediction where
  direction : Direction
  confidence : ℕ
  probabilities : Probabilities
  model : ModelName
  timestamp : ℤ
deriving DecidableEq

/-- The `mockData` / `currentData` object (lines 23-35). -/
structure DashboardData where
  currentPrice : ℚ
  priceChange : ℚ
  priceChangePercent : ℚ
  dataPoints : ℕ
  featureCount : ℕ
  historicalPrices : List PricePoint
  models : ModelsInfo
deriving DecidableEq

/-- JS `x.toFixed(1)` embedded as rounding to one decimal place. -/
def toFixed1 (x : ℚ) : ℚ := (round (x * 10) : ℤ) / 10

/-- JS `x.toFixed(2)` embedded as rounding to two decimal places. -/
def toFixed2 (x : ℚ) : ℚ := (round (x * 100) : ℤ) / 100

/-- The last `k` elements of a list (specification vocabulary for the
FIFO-bounded chart window). -/
def lastK (k : ℕ) (l : List α) : List α := l.drop (l.length - k)

/-- `generateHistoricalData` (lines 49-61): 30 points, iteration `k`
handles day offset `i = 29 - k` and draws random `rs k`:
`price = 9100 + (Math.random() - 0.5) * 200`. -/
def generateHistoricalData (today : ℤ) (rs : ℕ → ℚ) : List PricePoint :=
  (List.range 30).map fun k : ℕ =>
    { timestamp := today - ((29 : ℤ) - (k : ℤ)), price := 9100 + (rs k - 1/2) * 200 }

/-- The static model metrics of `mockData.models` (lines 30-34). -/
def staticModels : ModelsInfo :=
  { randomForest :=
      { accuracy := 5597/10000, precisionScore := 5573/10000, recallScore := 5597/10000 }
    hybrid :=
      { accuracy := 5309/10000, precisionScore := 5160/10000, recallScore := 5309/10000 }
    svm :=
      { accuracy := 5350/10000, precisionScore := 2862/10000, recallScore := 5350/10000 } }

/-- The `mockData` literal of `loadDashboardData` (lines 23-35). -/
def mkMockData (today : ℤ) (rs : ℕ → ℚ) : DashboardData :=
  { currentPrice := 913890/100
    priceChange := 4520/100
    priceChangePercent := 50/100
    dataPoints := 1261
    featureCount := 60
    historicalPrices := generateHistoricalData today rs
    models := staticModels }

/-- `['random_forest','hybrid','svm'][n]` for `n = Math.floor(Math.random()*3)`
(line 73); `n` is 0, 1 or 2 when the draw is in `[0,1)`. -/
def modelAt : ℕ → ModelName
  | 0 => ModelName.random_forest
  | 1 => ModelName.hybrid
  | _ => ModelName.svm

/-- The prediction value computed in the `setTimeout` callback of
`simulatePrediction` (lines 66-80), including the probability
normalization `p / total * 100` followed by `toFixed(1)`.
At `total = 0` (both raw draws zero) `ℚ` division gives 0 where JS gives
NaN; under both semantics the normalized entries do not sum to 100 there. -/
def simulatePredictionResult (rDir rConf rUp rDown rModel : ℚ) (ts : ℤ) : Prediction :=
  let rawUp := rUp * 100
  let rawDown := rDown * 100
  let total := rawUp + rawDown
  { direction := if rDir > 1/2 then Direction.UP else Direction.DOWN
    confidence := (⌊rConf * 30⌋).toNat + 70
    probabilities :=
      { up := toFixed1 (rawUp / total * 100)
        down := toFixed1 (rawDown / total * 100) }
    model := modelAt (⌊rModel * 3⌋).toNat
    timestamp := ts }

/-- The mutable fields of the `QuantumMLDashboard` instance (lines 13-16),
plus `pendingPredictions`: the number of `simulatePrediction` timers
registered but not yet fired (the JS runtime's pending `setTimeout`s). -/
structure DashState where
  priceChartData : List PricePoint
  currentData : Option DashboardData
  isLoading : Bool
  lastPrediction : Option Prediction
  pendingPredictions : ℕ
deriving DecidableEq

/-- Events emitted on the dashboard `EventEmitter`. -/
inductive Event where
  | dataLoaded (d : DashboardData)
  | errorEv (msg : String)
  | predictionStarted
  | predictionComplete (p : Prediction)
  | priceUpdate (currentPrice priceChange priceChangePercent : ℚ)
  | chartUpdate (history : List PricePoint)
deriving DecidableEq

/-- `loadDashboardData` (lines 19-47): sets `isLoading`, stores `mockData`
as `currentData`, emits `dataLoaded`, and the `finally` block clears
`isLoading`. The body has no suspension point, so the whole call is one
atomic step; it performs no busy-flag check. The catch branch (lines
40-43) is unreachable since the `try` body cannot throw. -/
def loadDashboardData (s : DashState) (today : ℤ) (rs : ℕ → ℚ) :
    DashState × List Event :=
  let d := mkMockData today rs
  ({ s with currentData := some d, isLoading := false }, [Event.dataLoaded d])

/-- The synchronous prefix of `runPrediction` (lines 89-94): the busy
check, setting `isLoading`, emitting `predictionStarted`, and
`simulatePrediction` registering its 2000ms timer. -/
def runPredictionStart (s : DashState) : DashState × List Event :=
  if s.isLoading then (s, [])
  else
    ({ s with isLoading := true, pendingPredictions := s.pendingPredictions + 1 },
     [Event.predictionStarted])

/-- A `simulatePrediction` timer firing (lines 65-85) together with
`runPrediction`'s `finally` (line 100): computes the prediction, stores it
as `lastPrediction`, emits `predictionComplete`, and clears `isLoading`.
The `pendingPredictions = 0` branch encodes that this step is only
enabled while a timer is pending. -/
def completePrediction (s : DashState) (rDir rConf rUp rDown rModel : ℚ) (ts : ℤ) :
    DashState × List Event :=
  if s.pendingPredictions = 0 then (s, [])
  else
    let p := simulatePredictionResult rDir rConf rUp rDown rModel ts
    ({ s with lastPrediction := some p
              pendingPredictions := s.pendingPredictions - 1
              isLoading := false },
     [Event.predictionComplete p])

/-- `simulatePriceUpdate` (lines 104-134): no-op without `currentData`;
otherwise perturbs the price by `(Math.random() - 0.5) * 10`, rebuilds
`currentData` (the object spread), pushes the new point, shifts when the
chart exceeds 30 entries, and emits `priceUpdate` then `chartUpdate`
(the latter with `priceChartData.slice()`, whose contents equal the
stored list). -/
def simulatePriceUpdate (s : DashState) (r : ℚ) (ts : ℤ) :
    DashState × List Event :=
  match s.currentData with
  | none => (s, [])
  | some d =>
    let newPrice := d.currentPrice + (r - 1/2) * 10
    let change := newPrice - d.currentPrice
    let pct := toFixed2 (change / d.currentPrice * 100)
    let d' := { d with currentPrice := newPrice, priceChange := change,
                       priceChangePercent := pct }
    let chart1 := s.priceChartData ++ [{ timestamp := ts, price := newPrice }]
    let chart2 := if 30 < chart1.length then chart1.tail else chart1
    ({ s with currentData := some d', priceChartData := chart2 },
     [Event.priceUpdate newPrice change pct, Event.chartUpdate chart2])

/-- The atomic steps of the event loop, each carrying the random draws and
timestamps the corresponding source code consumes. -/
inductive Op where
  | load (today : ℤ) (rs : ℕ → ℚ)
  | startPredict
  | completePredict (rDir rConf rUp rDown rModel : ℚ) (ts : ℤ)
  | tick (r : ℚ) (ts : ℤ)

/-- Dispatch one atomic step. -/
def stepOp (s : DashState) : Op → DashState × List Event
  | Op.load today rs => loadDashboardData s today rs
  | Op.startPredict => runPredictionStart s
  | Op.completePredict a b c d e ts => completePrediction s a b c d e ts
  | Op.tick r ts => simulatePriceUpdate s r ts

/-- Run a sequence of steps, accumulating emitted events in order. -/
def run : DashState → List Op → DashState × List Event
  | s, [] => (s, [])
  | s, op :: rest =>
      let o1 := stepOp s op
      let o2 := run o1.1 rest
      (o2.1, o1.2 ++ o2.2)

/-- The dashboard state at process start (constructor, lines 11-17). -/
def initState : DashState :=
  { priceChartData := []
    currentData := none
    isLoading := false
    lastPrediction := none
    pendingPredictions := 0 }

/-- The chart point a single step generates: only a `tick` with data
loaded appends a point (lines 118-121). -/
def genHead (s : DashState) : Op → List PricePoint
  | Op.tick r ts =>
      match s.currentData with
      | some d => [{ timestamp := ts, price := d.currentPrice + (r - 1/2) * 10 }]
      | none => []
  | _ => []

/-- All chart points generated along a run, in generation order. -/
def genPoints : DashState → List Op → List PricePoint
  | _, [] => []
  | s, op :: rest => genHead s op ++ genPoints (stepOp s op).1 rest

/-- The number of prediction cycles that actually complete along a run
(a `completePredict` step fires only while a timer is pending). -/
def effectiveCompletions : DashState → List Op → ℕ
  | _, [] => 0
  | s, op :: rest =>
      (match op with
       | Op.completePredict _ _ _ _ _ _ => if s.pendingPredictions = 0 then 0 else 1
       | _ => 0) + effectiveCompletions (stepOp s op).1 rest

/-- Recognizes `predictionComplete` events. -/
def isCompleteEvent : Event → Bool
  | Event.predictionComplete _ => true
  | _ => false

/-- How many `predictionComplete` events a trace contains. -/
def countCompleteEvents (evs : List Event) : ℕ :=
  (evs.filter isCompleteEvent).length

/-- JSON response bodies of the REST layer, kept structured. -/
inductive ApiBody where
  | messageBody (msg : String)
  | errorBody (msg : String)
  | predictionBody (p : Prediction)
  | dataBody (d : DashboardData)
deriving DecidableEq

/-- Observable actions of a route handler, in program order. -/
inductive ApiAction where
  | emit (e : Event)
  | respond (status : ℕ) (body : ApiBody)
deriving DecidableEq

/-- The `POST /api/predict` handler (lines 233-240): it `await`s
`dashboard.runPrediction()` and only then sends the 200 response. When
the busy flag is set, `runPrediction` returns immediately and the
response is sent with no events; otherwise the handler's timeline is the
start of the cycle, the timer firing, then the response (no other source
of interleaving is scheduled during the handler in this embedding). The
catch branch (500 `Prediction failed`) is unreachable because the
embedded `runPrediction` cannot throw. -/
def apiPredict (s : DashState) (rDir rConf rUp rDown rModel : ℚ) (ts : ℤ) :
    DashState × List ApiAction :=
  if s.isLoading then
    (s, [ApiAction.respond 200 (ApiBody.messageBody ("Prediction started"))])
  else
    let o1 := runPredictionStart s
    let o2 := completePrediction o1.1 rDir rConf rUp rDown rModel ts
    (o2.1, (o1.2 ++ o2.2).map ApiAction.emit
            ++ [ApiAction.respond 200 (ApiBody.messageBody ("Prediction started"))])

/-- The `GET /api/last-prediction` handler (lines 242-248). -/
def apiLastPrediction (s : DashState) : ℕ × ApiBody :=
  match s.lastPrediction with
  | some p => (200, ApiBody.predictionBody p)
  | none => (404, ApiBody.errorBody ("No prediction available"))

/-- Recognizes `respond` actions. -/
def isRespondAction : ApiAction → Bool
  | ApiAction.respond _ _ => true
  | _ => false

/-- Recognizes emitted `predictionComplete` actions. -/
def isCompleteAction : ApiAction → Bool
  | ApiAction.emit (Event.predictionComplete _) => true
  | _ => false

/-- Index of the first action satisfying `p`, if any. -/
def firstIdx (p : ApiAction → Bool) : List ApiAction → Option ℕ
  | [] => none
  | a :: rest => if p a then some 0 else (firstIdx p rest).map (· + 1)

/-- Index of the handler's first response action. -/
def firstRespondIdx (tr : List ApiAction) : Option ℕ := firstIdx isRespondAction tr

/-- Index of the handler's first `predictionComplete` emission. -/
def firstCompleteIdx (tr : List ApiAction) : Option ℕ := firstIdx isCompleteAction tr

/-- The claim's reading of `POST /api/predict`: the response is sent
before the prediction cycle completes. -/
def RespondsBeforeCompletion (tr : List ApiAction) : Prop :=
  ∀ i j, firstRespondIdx tr = some i → firstCompleteIdx tr = some j → i < j

/-- Messages pushed over the WebSocket channel (the `type` tags of the
JSON envelopes, lines 159-220). -/
inductive WsMsg where
  | initialData (d : DashboardData)
  | dataLoaded (d : DashboardData)
  | predictionResult (p : Prediction)
  | priceUpdate (currentPrice priceChange priceChangePercent : ℚ)
  | chartUpdate (history : List PricePoint)
deriving DecidableEq

/-- The event-forwarding handlers (lines 179-221): `dataLoaded`,
`predictionComplete` (as `predictionResult`), `priceUpdate` and
`chartUpdate` are forwarded; no handler is wired for `error` or
`predictionStarted`. -/
def eventToMsg : Event → Option WsMsg
  | Event.dataLoaded d => some (WsMsg.dataLoaded d)
  | Event.predictionComplete p => some (WsMsg.predictionResult p)
  | Event.priceUpdate a b c => some (WsMsg.priceUpdate a b c)
  | Event.chartUpdate h => some (WsMsg.chartUpdate h)
  | _ => none

/-- Server-level steps: a WebSocket client connecting, or a dashboard
step whose events are broadcast. -/
inductive SrvStep where
  | connect (id : ℕ)
  | opStep (op : Op)

/-- Server state: the dashboard plus the ids of the connected clients
(`wss.clients`); connected clients are modelled as being in the OPEN
ready state. -/
structure SrvState where
  dash : DashState
  clients : List ℕ

/-- One server step with its deliveries, each delivery tagged with the
receiving client. `connect` (lines 154-163) registers the client and, if
`currentData` exists, sends `initialData` to that socket only; an `opStep`
(lines 179-221) broadcasts each forwarded event to every connected
client. -/
def srvStep (st : SrvState) : SrvStep → SrvState × List (ℕ × WsMsg)
  | SrvStep.connect i =>
      ({ dash := st.dash, clients := st.clients ++ [i] },
       match st.dash.currentData with
       | some d => [(i, WsMsg.initialData d)]
       | none => [])
  | SrvStep.opStep op =>
      let o1 := stepOp st.dash op
      ({ dash := o1.1, clients := st.clients },
       o1.2.flatMap fun e =>
         match eventToMsg e with
         | some m => st.clients.map fun c => (c, m)
         | none => [])

/-- Run a sequence of server steps, accumulating deliveries in order. -/
def srvRun : SrvState → List SrvStep → SrvState × List (ℕ × WsMsg)
  | st, [] => (st, [])
  | st, s :: rest =>
      let o1 := srvStep st s
      let o2 := srvRun o1.1 rest
      (o2.1, o1.2 ++ o2.2)

/-- The messages client `i` receives from a delivery list, in order. -/
def inbox (i : ℕ) (ds : List (ℕ × WsMsg)) : List WsMsg :=
  (ds.filter fun cm => cm.1 == i).map Prod.snd

/-- Recognizes `initialData` messages. -/
def isInitialDataMsg : WsMsg → Bool
  | WsMsg.initialData _ => true
  | _ => false

/-- How many `initialData` messages a message list contains. -/
def countInitial (ms : List WsMsg) : ℕ :=
  (ms.filter isInitialDataMsg).length

/-- Heap objects relevant to payload aliasing: the `mockData` object, a
prediction object, a chart point object, and the fresh object literal
emitted with `priceUpdate` (lines 127-131). -/
inductive HVal where
  | dataObj (d : DashboardData)
  | predObj (p : Prediction)
  | pointObj (pt : PricePoint)
  | priceUpdObj (currentPrice priceChange priceChangePercent : ℚ)
deriving DecidableEq

/-- A heap: cell `a` is `cells[a]`; allocation appends. -/
structure Heap where
  cells : List HVal
deriving DecidableEq

/-- Allocate a fresh object, returning its address. -/
def Heap.alloc (h : Heap) (v : HVal) : Heap × ℕ :=
  ({ cells := h.cells ++ [v] }, h.cells.length)

/-- Dereference an address. -/
def Heap.get (h : Heap) (a : ℕ) : Option HVal := h.cells[a]?

/-- Mutate the object at an address (what an event handler does when it
writes to a received payload). -/
def Heap.set (h : Heap) (a : ℕ) (v : HVal) : Heap :=
  { cells := h.cells.set a v }

/-- The store's references in the heap model: `currentData` and
`lastPrediction` are references to heap objects, `priceChartData` is the
store's array of references to point objects. -/
structure HStore where
  currentDataRef : Option ℕ
  lastPredictionRef : Option ℕ
  chartRefs : List ℕ
  isLoading : Bool
deriving DecidableEq

/-- Events with payloads by reference: `chartUpdate` carries the fresh
array produced by `slice()` as a copied list of the same element
addresses. -/
inductive HEvent where
  | dataLoaded (payload : ℕ)
  | predictionComplete (payload : ℕ)
  | priceUpdate (payload : ℕ)
  | chartUpdate (payload : List ℕ)
deriving DecidableEq

/-- `loadDashboardData` in the heap model (lines 19-47): `mockData` is
allocated once; the same reference is stored as `currentData` and passed
as the `dataLoaded` payload (lines 37-38). -/
def loadH (h : Heap) (st : HStore) (today : ℤ) (rs : ℕ → ℚ) :
    Heap × HStore × List HEvent :=
  let d := mkMockData today rs
  let o := h.alloc (HVal.dataObj d)
  (o.1, { st with currentDataRef := some o.2, isLoading := false },
   [HEvent.dataLoaded o.2])

/-- A prediction cycle completing in the heap model (lines 66-84): the
prediction object is allocated once; the same reference is stored as
`lastPrediction` and passed as the `predictionComplete` payload. -/
def completePredictionH (h : Heap) (st : HStore)
    (rDir rConf rUp rDown rModel : ℚ) (ts : ℤ) :
    Heap × HStore × List HEvent :=
  let p := simulatePredictionResult rDir rConf rUp rDown rModel ts
  let o := h.alloc (HVal.predObj p)
  (o.1, { st with lastPredictionRef := some o.2, isLoading := false },
   [HEvent.predictionComplete o.2])

/-- `simulatePriceUpdate` in the heap model (lines 104-134): the object
spread allocates a fresh data object; the pushed point is a fresh object
whose reference enters the store's array; the `priceUpdate` payload is a
fresh object literal; the `chartUpdate` payload is the `slice()` copy,
a fresh array holding the same point references as the store's array. -/
def tickH (h : Heap) (st : HStore) (r : ℚ) (ts : ℤ) :
    Heap × HStore × List HEvent :=
  match st.currentDataRef with
  | none => (h, st, [])
  | some aD =>
    match h.get aD with
    | some (HVal.dataObj d) =>
      let newPrice := d.currentPrice + (r - 1/2) * 10
      let change := newPrice - d.currentPrice
      let pct := toFixed2 (change / d.currentPrice * 100)
      let d' := { d with currentPrice := newPrice, priceChange := change,
                         priceChangePercent := pct }
      let o1 := h.alloc (HVal.dataObj d')
      let o2 := o1.1.alloc (HVal.pointObj { timestamp := ts, price := newPrice })
      let chart1 := st.chartRefs ++ [o2.2]
      let chart2 := if 30 < chart1.length then chart1.tail else chart1
      let o3 := o2.1.alloc (HVal.priceUpdObj newPrice change pct)
      (o3.1, { st with currentDataRef := some o1.2, chartRefs := chart2 },
       [HEvent.priceUpdate o3.2, HEvent.chartUpdate chart2])
    | _ => (h, st, [])

/-- Everything of the store's state visible through its references: the
current data object, the last prediction object, and the chart's point
objects. -/
def storeView (h : Heap) (st : HStore) :
    Option HVal × Option HVal × List (Option HVal) :=
  (st.currentDataRef.bind h.get, st.lastPredictionRef.bind h.get,
   st.chartRefs.map h.get)

/-- Concrete dashboard state with data loaded, for witnesses. -/
def demoDash : DashState := (stepOp initState (Op.load 0 fun _ => 0)).1

/-- Concrete loaded snapshot, for witnesses. -/
def demoData : DashboardData := mkMockData 0 fun _ => 0

/-- Concrete server state with one connected client, for witnesses. -/
def demoSrv : SrvState := { dash := demoDash, clients := [3] }

/-- The heap-model store at process start: no objects referenced. -/
def hStore0 : HStore :=
  { currentDataRef := none, lastPredictionRef := none, chartRefs := [], isLoading := false }

/-- Heap-model configuration right after a load from the empty heap. -/
def demoLoadH : Heap × HStore × List HEvent :=
  loadH { cells := [] } hStore0 0 fun _ => 0

/-- The loaded data object with its price overwritten — what a handler
mutating the received `dataLoaded` payload produces. -/
def mutatedData : DashboardData := { mkMockData 0 (fun _ => 0) with currentPrice := 0 }

/-! ## List window lemmas -/

theorem lastK_of_le {k : ℕ} {l : List α} (h : l.length ≤ k) : lastK k l = l := by
  unfold lastK
  rw [Nat.sub_eq_zero_of_le h, List.drop_zero]

theorem lastK_length_le (k : ℕ) (l : List α) : (lastK k l).length ≤ k := by
  unfold lastK
  rw [List.length_drop]
  omega

theorem lastK_append_left {k : ℕ} (A B : List α) (h : k ≤ B.length) :
    lastK k (A ++ B) = lastK k B := by
  unfold lastK
  rw [List.length_append,
    show A.length + B.length - k = A.length + (B.length - k) by omega,
    List.drop_append]

theorem lastK_append_lastK {k : ℕ} (l m : List α) :
    lastK k (lastK k l ++ m) = lastK k (l ++ m) := by
  by_cases h : l.length ≤ k
  · rw [lastK_of_le h]
  · have hB : k ≤ (l.drop (l.length - k) ++ m).length := by
      rw [List.length_append, List.length_drop]
      omega
    conv_rhs => rw [← List.take_append_drop (l.length - k) l]
    rw [List.append_assoc, lastK_append_left _ _ hB]
    rfl

theorem lastK_subset (k : ℕ) (l : List α) : lastK k l ⊆ l :=
  List.drop_subset _ l

/-! ## Chart window invariant (FIFO eviction at 30 entries) -/

theorem fifo_eq_lastK (c : List PricePoint) (x : PricePoint) (h : c.length ≤ 30) :
    (if 30 < (c ++ [x]).length then (c ++ [x]).tail else c ++ [x]) =
      lastK 30 (c ++ [x]) ∧
    (if 30 < (c ++ [x]).length then (c ++ [x]).tail else c ++ [x]).length ≤ 30 := by
  rw [List.length_append, List.length_singleton]
  by_cases hc : c.length = 30
  · have h31 : 30 < c.length + 1 := by omega
    rw [if_pos h31]
    constructor
    · unfold lastK
      rw [List.length_append, List.length_singleton, hc,
        show 30 + 1 - 30 = 1 by omega, List.drop_one]
    · rw [← List.drop_one, List.length_drop, List.length_append]
      simp
      omega
  · have h31 : ¬ 30 < c.length + 1 := by omega
    rw [if_neg h31]
    refine ⟨(lastK_of_le ?_).symm, ?_⟩ <;>
      simp [List.length_append] <;> omega

theorem step_chart (s : DashState) (op : Op) (h : s.priceChartData.length ≤ 30) :
    (stepOp s op).1.priceChartData = lastK 30 (s.priceChartData ++ genHead s op) ∧
    (stepOp s op).1.priceChartData.length ≤ 30 := by
  cases op with
  | load today rs =>
      simp [stepOp, loadDashboardData, genHead, lastK_of_le h, h]
  | startPredict =>
      by_cases hl : s.isLoading <;>
        simp [stepOp, runPredictionStart, hl, genHead, lastK_of_le h, h]
  | completePredict a b c d e ts =>
      by_cases hp : s.pendingPredictions = 0 <;>
        simp [stepOp, completePrediction, hp, genHead, lastK_of_le h, h]
  | tick r ts =>
      cases hcd : s.currentData with
      | none => simp [stepOp, simulatePriceUpdate, hcd, genHead, lastK_of_le h, h]
      | some d =>
          have hf := fifo_eq_lastK s.priceChartData
            { timestamp := ts, price := d.currentPrice + (r - 1/2) * 10 } h
          simpa [stepOp, simulatePriceUpdate, hcd, genHead] using hf

theorem run_cons_state (s : DashState) (op : Op) (rest : List Op) :
    (run s (op :: rest)).1 = (run (stepOp s op).1 rest).1 := rfl

theorem run_cons_events (s : DashState) (op : Op) (rest : List Op) :
    (run s (op :: rest)).2 = (stepOp s op).2 ++ (run (stepOp s op).1 rest).2 := rfl

theorem chart_run_eq (ops : List Op) :
    ∀ s : DashState, s.priceChartData.length ≤ 30 →
      (run s ops).1.priceChartData = lastK 30 (s.priceChartData ++ genPoints s ops) ∧
      (run s ops).1.priceChartData.length ≤ 30 := by
  induction ops with
  | nil =>
      intro s h
      refine ⟨?_, ?_⟩
      · simp [run, genPoints, lastK_of_le h]
      · simpa [run] using h
  | cons op rest ih =>
      intro s h
      obtain ⟨h1, h2⟩ := step_chart s op h
      obtain ⟨h3, h4⟩ := ih (stepOp s op).1 h2
      refine ⟨?_, by rw [run_cons_state]; exact h4⟩
      rw [run_cons_state, h3, h1, genPoints, lastK_append_lastK, List.append_assoc]

/-- C1: along every sequence of load, tick and prediction steps the chart
price history keeps at most 30 entries, and always equals the suffix of
the most recently generated points, in generation (chronological) order —
the FIFO eviction discards exactly the oldest entries. -/
theorem C1_chart_bounded_fifo (ops : List Op) :
    (run initState ops).1.priceChartData.length ≤ 30 ∧
    (run initState ops).1.priceChartData = lastK 30 (genPoints initState ops) := by
  obtain ⟨h1, h2⟩ := chart_run_eq ops initState (by simp [initState])
  refine ⟨h2, ?_⟩
  simpa [initState] using h1

/-! ## Busy-flag state machine -/

/-- C2 counterexample: starting a prediction sets the busy flag, yet a
load begun in that state is not rejected — it is not a no-op: it emits
`dataLoaded` and installs a snapshot (and it even clears the flag while
the prediction is still pending). `loadDashboardData` performs no busy
check. -/
theorem C2_busy_counterexample :
    ((stepOp initState Op.startPredict).1.isLoading = true) ∧
    (stepOp (stepOp initState Op.startPredict).1 (Op.load 0 fun _ => 0)).2 ≠ [] ∧
    (stepOp (stepOp initState Op.startPredict).1 (Op.load 0 fun _ => 0)).1 ≠
      (stepOp initState Op.startPredict).1 := by
  refine ⟨rfl, ?_, ?_⟩ <;> simp [stepOp, loadDashboardData, runPredictionStart, initState]

/-- C2 (amended): only the prediction cycle checks the BusyFlag — calling
`startPrediction` while the flag is set is a rejected no-op (no state
change, no event); a load cycle is never rejected and always clears the
flag on exit, as does every completing prediction cycle. Because an
interleaved load clears the flag while a prediction is pending, two
prediction cycles can in fact overlap (two timers pending at once). -/
theorem C2_busy_amended :
    (∀ s : DashState, s.isLoading = true → runPredictionStart s = (s, [])) ∧
    (∀ (s : DashState) (today : ℤ) (rs : ℕ → ℚ),
      (stepOp s (Op.load today rs)).1.isLoading = false) ∧
    (∀ (s : DashState) (a b c d e : ℚ) (ts : ℤ), s.pendingPredictions ≠ 0 →
      (stepOp s (Op.completePredict a b c d e ts)).1.isLoading = false) ∧
    (run initState
      [Op.startPredict, Op.load 0 fun _ => 0, Op.startPredict]).1.pendingPredictions = 2 := by
  refine ⟨?_, ?_, ?_, ?_⟩
  · intro s h
    simp [runPredictionStart, h]
  · intro s today rs
    simp [stepOp, loadDashboardData]
  · intro s a b c d e ts h
    simp [stepOp, completePrediction, h]
  · rfl

/-- Witness for `C2_busy_amended`: its hypothesis-bearing clauses applied
at concrete states (a busy state for the no-op clause, a pending-timer
state for the flag-clearing clause). -/
theorem C2_busy_amended_witness :
    (runPredictionStart (stepOp initState Op.startPredict).1 =
      ((stepOp initState Op.startPredict).1, [])) ∧
    (stepOp (stepOp initState Op.startPredict).1
      (Op.completePredict 0 0 0 0 0 0)).1.isLoading = false := by
  exact ⟨C2_busy_amended.1 _ rfl, C2_busy_amended.2.2.1 _ 0 0 0 0 0 0 (by decide)⟩

/-- C3: `predictionStarted` is published iff `startPrediction` actually
begins a new cycle (the flag transitions idle to busy); a call while busy
publishes nothing; and for two back-to-back `startPrediction` calls
without awaiting the first, exactly one `predictionComplete` ever fires —
only one timer was registered, so after it fires no further completion is
possible. -/
theorem C3_prediction_started_iff :
    (∀ s : DashState, (runPredictionStart s).2 =
      if s.isLoading then [] else [Event.predictionStarted]) ∧
    (∀ s : DashState, Event.predictionStarted ∈ (runPredictionStart s).2 ↔
      (s.isLoading = false ∧ (runPredictionStart s).1.isLoading = true)) ∧
    (∀ (a b c d e : ℚ) (ts : ℤ),
      countCompleteEvents (run initState
        [Op.startPredict, Op.startPredict, Op.completePredict a b c d e ts]).2 = 1 ∧
      (run initState
        [Op.startPredict, Op.startPredict, Op.completePredict a b c d e ts]).1.pendingPredictions = 0) := by
  refine ⟨?_, ?_, ?_⟩
  · intro s
    by_cases h : s.isLoading <;> simp [runPredictionStart, h]
  · intro s
    by_cases h : s.isLoading <;> simp [runPredictionStart, h]
  · intro a b c d e ts
    constructor <;> rfl

/-! ## Prediction value bounds -/

theorem abs_toFixed1_sub (x : ℚ) : |toFixed1 x - x| ≤ 1/20 := by
  have h := abs_sub_round (x * 10)
  unfold toFixed1
  rw [show ((round (x * 10) : ℤ) : ℚ) / 10 - x = -((x * 10 - (round (x * 10) : ℤ)) / 10) by
    ring]
  rw [abs_neg, abs_div]
  rw [show |(10 : ℚ)| = 10 by norm_num]
  linarith

/-- C4 counterexample: `Math.random()` draws from `[0,1)` and can return 0;
when both raw probability draws are 0 the normalization divides by zero
(NaN in JS, 0 in this embedding), and the produced prediction's
probabilities do not sum to 100 within one decimal place of rounding. -/
theorem C4_prediction_counterexample :
    ¬ (|(simulatePredictionResult 0 0 0 0 0 0).probabilities.up +
        (simulatePredictionResult 0 0 0 0 0 0).probabilities.down - 100| ≤ 1/10) := by
  have hup : (simulatePredictionResult 0 0 0 0 0 0).probabilities.up = 0 := by
    norm_num [simulatePredictionResult, toFixed1]
  have hdn : (simulatePredictionResult 0 0 0 0 0 0).probabilities.down = 0 := by
    norm_num [simulatePredictionResult, toFixed1]
  rw [hup, hdn]
  norm_num

/-- C4 (amended): every prediction produced by a completed cycle has an
integer confidence in `[70,100)`, direction UP or DOWN, model among
random_forest, hybrid and svm; and provided the two raw probability draws
are not both zero, the normalized probabilities sum to 100 within rounding
to one decimal place (each side carries at most 0.05 of rounding error). -/
theorem C4_prediction_amended (rDir rConf rUp rDown rModel : ℚ) (ts : ℤ)
    (h0 : 0 ≤ rConf) (h1 : rConf < 1) (h2 : 0 ≤ rUp) (h3 : 0 ≤ rDown)
    (h4 : 0 < rUp + rDown) :
    (70 ≤ (simulatePredictionResult rDir rConf rUp rDown rModel ts).confidence ∧
      (simulatePredictionResult rDir rConf rUp rDown rModel ts).confidence < 100) ∧
    ((simulatePredictionResult rDir rConf rUp rDown rModel ts).direction = Direction.UP ∨
      (simulatePredictionResult rDir rConf rUp rDown rModel ts).direction = Direction.DOWN) ∧
    ((simulatePredictionResult rDir rConf rUp rDown rModel ts).model = ModelName.random_forest ∨
      (simulatePredictionResult rDir rConf rUp rDown rModel ts).model = ModelName.hybrid ∨
      (simulatePredictionResult rDir rConf rUp rDown rModel ts).model = ModelName.svm) ∧
    |(simulatePredictionResult rDir rConf rUp rDown rModel ts).probabilities.up +
      (simulatePredictionResult rDir rConf rUp rDown rModel ts).probabilities.down - 100|
      ≤ 1/10 := by
  refine ⟨⟨?_, ?_⟩, ?_, ?_, ?_⟩
  · simp [simulatePredictionResult]
  · have hf : ⌊rConf * 30⌋ < 30 := by
      rw [Int.floor_lt]
      push_cast
      nlinarith
    have ht : (⌊rConf * 30⌋).toNat ≤ 29 := by
      rw [Int.toNat_le]
      omega
    simp only [simulatePredictionResult]
    omega
  · simp only [simulatePredictionResult]
    split
    · exact Or.inl rfl
    · exact Or.inr rfl
  · simp only [simulatePredictionResult]
    rcases hn : (⌊rModel * 3⌋).toNat with _ | _ | n <;> simp [modelAt]
  · have hpos : (0 : ℚ) < rUp * 100 + rDown * 100 := by nlinarith
    have htot : rUp * 100 + rDown * 100 ≠ 0 := ne_of_gt hpos
    have hup : (simulatePredictionResult rDir rConf rUp rDown rModel ts).probabilities.up =
        toFixed1 (rUp * 100 / (rUp * 100 + rDown * 100) * 100) := rfl
    have hdn : (simulatePredictionResult rDir rConf rUp rDown rModel ts).probabilities.down =
        toFixed1 (rDown * 100 / (rUp * 100 + rDown * 100) * 100) := rfl
    rw [hup, hdn]
    set u : ℚ := rUp * 100 / (rUp * 100 + rDown * 100) * 100 with hu
    set v : ℚ := rDown * 100 / (rUp * 100 + rDown * 100) * 100 with hv
    have hsum : u + v = 100 := by
      rw [hu, hv]
      field_simp
      ring
    have e1 := abs_toFixed1_sub u
    have e2 := abs_toFixed1_sub v
    have h100 : toFixed1 u + toFixed1 v - 100 =
        (toFixed1 u - u) + (toFixed1 v - v) := by linarith
    calc |toFixed1 u + toFixed1 v - 100|
        = |(toFixed1 u - u) + (toFixed1 v - v)| := by rw [h100]
      _ ≤ |toFixed1 u - u| + |toFixed1 v - v| := abs_add _ _
      _ ≤ 1/10 := by linarith

/-- Witness for `C4_prediction_amended` at concrete draws. -/
theorem C4_prediction_amended_witness :
    (70 ≤ (simulatePredictionResult (3/4) (1/2) (1/2) (1/4) 0 0).confidence ∧
      (simulatePredictionResult (3/4) (1/2) (1/2) (1/4) 0 0).confidence < 100) ∧
    ((simulatePredictionResult (3/4) (1/2) (1/2) (1/4) 0 0).direction = Direction.UP ∨
      (simulatePredictionResult (3/4) (1/2) (1/2) (1/4) 0 0).direction = Direction.DOWN) ∧
    ((simulatePredictionResult (3/4) (1/2) (1/2) (1/4) 0 0).model = ModelName.random_forest ∨
      (simulatePredictionResult (3/4) (1/2) (1/2) (1/4) 0 0).model = ModelName.hybrid ∨
      (simulatePredictionResult (3/4) (1/2) (1/2) (1/4) 0 0).model = ModelName.svm) ∧
    |(simulatePredictionResult (3/4) (1/2) (1/2) (1/4) 0 0).probabilities.up +
      (simulatePredictionResult (3/4) (1/2) (1/2) (1/4) 0 0).probabilities.down - 100|
      ≤ 1/10 :=
  C4_prediction_amended (3/4) (1/2) (1/2) (1/4) 0 0 (by norm_num) (by norm_num)
    (by norm_num) (by norm_num) (by norm_num)

/-! ## Tick functional correctness -/

/-- C5: `tick()` is a no-op (no state change, no events) when no snapshot
is loaded; otherwise, with delta `(r - 0.5) * 10` (bounded by 5 in
magnitude for draws in `[0,1)`), the new price is the previous price plus
the delta, `priceChange` is the new minus the previous price,
`priceChangePercent` is `priceChange / previousPrice * 100` rounded to two
decimal places, the new point is appended to the history with FIFO
eviction at 30, and the step publishes `priceUpdate` followed by
`chartUpdate` carrying the (updated) history. -/
theorem C5_tick_correct :
    (∀ (s : DashState) (r : ℚ) (ts : ℤ), s.currentData = none →
      simulatePriceUpdate s r ts = (s, [])) ∧
    (∀ (s : DashState) (r : ℚ) (ts : ℤ) (d : DashboardData),
      s.currentData = some d → s.priceChartData.length ≤ 30 →
      ∃ d', (simulatePriceUpdate s r ts).1.currentData = some d' ∧
        d'.currentPrice = d.currentPrice + (r - 1/2) * 10 ∧
        d'.priceChange = d'.currentPrice - d.currentPrice ∧
        d'.priceChangePercent = toFixed2 (d'.priceChange / d.currentPrice * 100) ∧
        (simulatePriceUpdate s r ts).1.priceChartData =
          lastK 30 (s.priceChartData ++ [{ timestamp := ts, price := d'.currentPrice }]) ∧
        (simulatePriceUpdate s r ts).1.priceChartData.length ≤ 30 ∧
        (simulatePriceUpdate s r ts).2 =
          [Event.priceUpdate d'.currentPrice d'.priceChange d'.priceChangePercent,
           Event.chartUpdate (simulatePriceUpdate s r ts).1.priceChartData]) ∧
    (∀ r : ℚ, 0 ≤ r → r < 1 → |(r - 1/2) * 10| ≤ 5) := by
  refine ⟨?_, ?_, ?_⟩
  · intro s r ts h
    simp [simulatePriceUpdate, h]
  · intro s r ts d hcd hlen
    rcases s with ⟨chart, cd, il, lp, pp⟩
    dsimp only at hcd hlen
    subst hcd
    obtain ⟨hfifo, hle⟩ := fifo_eq_lastK chart
      { timestamp := ts, price := d.currentPrice + (r - 1/2) * 10 } hlen
    exact ⟨_, rfl, rfl, rfl, rfl, hfifo, hle, rfl⟩
  · intro r h0 h1
    rw [abs_le]
    constructor <;> linarith

/-- Witness for `C5_tick_correct` at a concrete loaded state and a
concrete draw. -/
theorem C5_tick_correct_witness :
    (simulatePriceUpdate initState 0 0 = (initState, [])) ∧
    (∃ d', (simulatePriceUpdate demoDash (3/4) 7).1.currentData = some d' ∧
      d'.currentPrice = demoData.currentPrice + ((3/4 : ℚ) - 1/2) * 10 ∧
      d'.priceChange = d'.currentPrice - demoData.currentPrice ∧
      d'.priceChangePercent = toFixed2 (d'.priceChange / demoData.currentPrice * 100) ∧
      (simulatePriceUpdate demoDash (3/4) 7).1.priceChartData =
        lastK 30 (demoDash.priceChartData ++ [{ timestamp := 7, price := d'.currentPrice }]) ∧
      (simulatePriceUpdate demoDash (3/4) 7).1.priceChartData.length ≤ 30 ∧
      (simulatePriceUpdate demoDash (3/4) 7).2 =
        [Event.priceUpdate d'.currentPrice d'.priceChange d'.priceChangePercent,
         Event.chartUpdate (simulatePriceUpdate demoDash (3/4) 7).1.priceChartData]) ∧
    |((3/4 : ℚ) - 1/2) * 10| ≤ 5 :=
  ⟨C5_tick_correct.1 initState 0 0 rfl,
   C5_tick_correct.2.1 demoDash (3/4) 7 demoData rfl (by decide),
   C5_tick_correct.2.2 (3/4) (by norm_num) (by norm_num)⟩

/-! ## REST routes -/

/-- C6 counterexample: from the idle initial state, the
`POST /api/predict` handler's action trace is `predictionStarted`, then
`predictionComplete`, and only then the 200 response — the response is
sent after the prediction cycle completes (indices 1 and 2), refuting the
claim that the handler responds without waiting for completion. -/
theorem C6_predict_route_counterexample :
    firstCompleteIdx (apiPredict initState 0 0 (1/2) (1/2) 0 0).2 = some 1 ∧
    firstRespondIdx (apiPredict initState 0 0 (1/2) (1/2) 0 0).2 = some 2 ∧
    ¬ RespondsBeforeCompletion (apiPredict initState 0 0 (1/2) (1/2) 0 0).2 := by
  refine ⟨rfl, rfl, ?_⟩
  intro h
  have := h 2 1 rfl rfl
  omega

/-- C6 (amended): `POST /api/predict` awaits `runPrediction`, so when the
busy flag is idle the handler emits `predictionStarted`, then
`predictionComplete` with the computed prediction, and only then sends the
200 `Prediction started` acknowledgement (first response at index 2,
after the completion at index 1); when busy it responds 200 immediately
with no events. The 500 `Prediction failed` branch exists in the handler
but is unreachable, as the simulated prediction never fails. -/
theorem C6_predict_route_amended (s : DashState) (a b c d e : ℚ) (ts : ℤ) :
    (apiPredict s a b c d e ts).2 =
      (if s.isLoading then
        [ApiAction.respond 200 (ApiBody.messageBody ("Prediction started"))]
      else
        [ApiAction.emit Event.predictionStarted,
         ApiAction.emit (Event.predictionComplete (simulatePredictionResult a b c d e ts)),
         ApiAction.respond 200 (ApiBody.messageBody ("Prediction started"))]) ∧
    (firstRespondIdx (apiPredict s a b c d e ts).2,
      firstCompleteIdx (apiPredict s a b c d e ts).2) =
      (if s.isLoading then (some 0, none) else (some 2, some 1)) := by
  by_cases h : s.isLoading
  · constructor <;>
      simp [apiPredict, h, firstRespondIdx, firstCompleteIdx, firstIdx,
        isRespondAction, isCompleteAction]
  · constructor <;>
      simp [apiPredict, h, runPredictionStart, completePrediction,
        firstRespondIdx, firstCompleteIdx, firstIdx, isRespondAction, isCompleteAction]

/-- The stored last prediction is `none` exactly when no completion step
has fired along the run. -/
theorem lastPrediction_none_iff (ops : List Op) :
    ∀ s : DashState, (run s ops).1.lastPrediction = none ↔
      (s.lastPrediction = none ∧ effectiveCompletions s ops = 0) := by
  induction ops with
  | nil =>
      intro s
      simp [run, effectiveCompletions]
  | cons op rest ih =>
      intro s
      rw [run_cons_state, ih (stepOp s op).1]
      cases op with
      | load today rs =>
          simp [stepOp, loadDashboardData, effectiveCompletions]
      | startPredict =>
          by_cases h : s.isLoading <;>
            simp [stepOp, runPredictionStart, h, effectiveCompletions]
      | completePredict a b c d e ts =>
          by_cases h : s.pendingPredictions = 0 <;>
            simp [stepOp, completePrediction, h, effectiveCompletions]
      | tick r ts =>
          cases hcd : s.currentData <;>
            simp [stepOp, simulatePriceUpdate, hcd, effectiveCompletions]

/-- C7: `GET /api/last-prediction` answers 404 with the
`No prediction available` error body exactly when no prediction cycle has
ever completed since process start; otherwise it answers 200 with the
stored last prediction. -/
theorem C7_last_prediction_route (ops : List Op) :
    (apiLastPrediction (run initState ops).1 =
        (404, ApiBody.errorBody ("No prediction available")) ↔
      effectiveCompletions initState ops = 0) ∧
    (∀ p : Prediction, (run initState ops).1.lastPrediction = some p →
      apiLastPrediction (run initState ops).1 = (200, ApiBody.predictionBody p)) := by
  constructor
  · have hiff := lastPrediction_none_iff ops initState
    rw [show initState.lastPrediction = none from rfl] at hiff
    simp only [true_and] at hiff
    rw [← hiff]
    cases hlp : (run initState ops).1.lastPrediction <;>
      simp [apiLastPrediction, hlp]
  · intro p hp
    simp [apiLastPrediction, hp]

/-- Witness for `C7_last_prediction_route`: before any run it answers
404 `No prediction available`; after a completed cycle it answers 200
with the stored prediction. -/
theorem C7_last_prediction_route_witness :
    (apiLastPrediction (run initState []).1 =
        (404, ApiBody.errorBody ("No prediction available")) ↔
      effectiveCompletions initState [] = 0) ∧
    apiLastPrediction
        (run initState [Op.startPredict, Op.completePredict 0 0 (1/2) (1/2) 0 0]).1 =
      (200, ApiBody.predictionBody (simulatePredictionResult 0 0 (1/2) (1/2) 0 0)) :=
  ⟨(C7_last_prediction_route []).1,
   (C7_last_prediction_route [Op.startPredict, Op.completePredict 0 0 (1/2) (1/2) 0 0]).2
     (simulatePredictionResult 0 0 (1/2) (1/2) 0 0) rfl⟩

/-! ## WebSocket initial-data delivery -/

theorem srvRun_cons_state (st : SrvState) (s : SrvStep) (rest : List SrvStep) :
    (srvRun st (s :: rest)).1 = (srvRun (srvStep st s).1 rest).1 := rfl

theorem srvRun_cons_deliveries (st : SrvState) (s : SrvStep) (rest : List SrvStep) :
    (srvRun st (s :: rest)).2 = (srvStep st s).2 ++ (srvRun (srvStep st s).1 rest).2 := rfl

theorem inbox_append (i : ℕ) (a b : List (ℕ × WsMsg)) :
    inbox i (a ++ b) = inbox i a ++ inbox i b := by
  simp [inbox, List.filter_append]

theorem countInitial_append (a b : List WsMsg) :
    countInitial (a ++ b) = countInitial a + countInitial b := by
  simp [countInitial, List.filter_append]

/-- The event-forwarding handlers never produce an `initialData` message:
only the connection handler does. -/
theorem eventToMsg_not_initial (e : Event) (m : WsMsg) (h : eventToMsg e = some m) :
    isInitialDataMsg m = false := by
  cases e <;> first
    | exact Option.noConfusion h
    | (rw [← Option.some.inj h]; rfl)

theorem countInitial_of_no_initial (i : ℕ) (ds : List (ℕ × WsMsg))
    (h : ∀ cm ∈ ds, isInitialDataMsg cm.2 = false) :
    countInitial (inbox i ds) = 0 := by
  rw [countInitial, List.length_eq_zero, List.filter_eq_nil_iff]
  intro m hm
  rw [inbox] at hm
  obtain ⟨cm, hcm, hm2⟩ := List.mem_map.mp hm
  have := h cm (List.mem_of_mem_filter hcm)
  rw [← hm2] at *
  simp [this]

/-- Along any server run in which client `i` never (re)connects, client
`i` receives no `initialData` message: broadcasts never carry one, and
other clients' connects deliver only to themselves. -/
theorem countInitial_run_zero (steps : List SrvStep) :
    ∀ (st : SrvState) (i : ℕ),
      (∀ j, SrvStep.connect j ∈ steps → j ≠ i) →
      countInitial (inbox i (srvRun st steps).2) = 0 := by
  induction steps with
  | nil =>
      intro st i hj
      simp [srvRun, inbox, countInitial]
  | cons s rest ih =>
      intro st i hj
      rw [srvRun_cons_deliveries, inbox_append, countInitial_append,
        ih (srvStep st s).1 i (fun j hmem => hj j (List.mem_cons_of_mem _ hmem)),
        Nat.add_zero]
      cases s with
      | connect j =>
          have hji : j ≠ i := hj j (List.mem_cons_self _ _)
          cases hcd : st.dash.currentData <;>
            simp [srvStep, hcd, inbox, countInitial, hji]
      | opStep op =>
          apply countInitial_of_no_initial
          intro cm hcm
          simp only [srvStep] at hcm
          obtain ⟨e, _, hcm2⟩ := List.mem_flatMap.mp hcm
          cases hm : eventToMsg e with
          | none => simp [hm] at hcm2
          | some m =>
              rw [hm] at hcm2
              obtain ⟨c, _, hc2⟩ := List.mem_map.mp hcm2
              rw [← hc2]
              exact eventToMsg_not_initial e m hm

/-- C8: when a client connects while a snapshot exists, the connection
handler delivers exactly one message, an `initialData` carrying that
snapshot, to that client and to no other; it is the first message the new
client receives, and (as long as the same client id does not reconnect)
the only `initialData` it ever receives. When no snapshot exists, the
connection handler delivers nothing. -/
theorem C8_initial_data :
    (∀ (st : SrvState) (i : ℕ), st.dash.currentData = none →
      (srvStep st (SrvStep.connect i)).2 = []) ∧
    (∀ (st : SrvState) (i : ℕ) (d : DashboardData) (steps : List SrvStep),
      st.dash.currentData = some d →
      (∀ j, SrvStep.connect j ∈ steps → j ≠ i) →
      (srvStep st (SrvStep.connect i)).2 = [(i, WsMsg.initialData d)] ∧
      (inbox i (srvRun st (SrvStep.connect i :: steps)).2).head? =
        some (WsMsg.initialData d) ∧
      countInitial (inbox i (srvRun st (SrvStep.connect i :: steps)).2) = 1) := by
  constructor
  · intro st i h
    simp [srvStep, h]
  · intro st i d steps hcd hfresh
    have hstep : (srvStep st (SrvStep.connect i)).2 = [(i, WsMsg.initialData d)] := by
      simp [srvStep, hcd]
    have hrest := countInitial_run_zero steps (srvStep st (SrvStep.connect i)).1 i hfresh
    refine ⟨hstep, ?_, ?_⟩
    · rw [srvRun_cons_deliveries, inbox_append, hstep]
      simp [inbox]
    · rw [srvRun_cons_deliveries, inbox_append, countInitial_append, hstep, hrest]
      simp [inbox, countInitial, isInitialDataMsg]

/-- Witness for `C8_initial_data`: a fresh client (id 7) connecting to a
server with a loaded snapshot and one other client (id 3), followed by
that other client reconnecting. -/
theorem C8_initial_data_witness :
    ((srvStep { dash := initState, clients := [] } (SrvStep.connect 7)).2 = []) ∧
    ((srvStep demoSrv (SrvStep.connect 7)).2 = [(7, WsMsg.initialData demoData)] ∧
      (inbox 7 (srvRun demoSrv (SrvStep.connect 7 :: [SrvStep.connect 3])).2).head? =
        some (WsMsg.initialData demoData) ∧
      countInitial (inbox 7 (srvRun demoSrv (SrvStep.connect 7 :: [SrvStep.connect 3])).2) = 1) := by
  constructor
  · exact C8_initial_data.1 { dash := initState, clients := [] } 7 rfl
  · refine C8_initial_data.2 demoSrv 7 demoData [SrvStep.connect 3] rfl ?_
    intro j hj
    simp only [List.mem_singleton] at hj
    cases hj
    omega

/-! ## Payload aliasing -/

theorem Heap_get_set_ne (h : Heap) (a b : ℕ) (v : HVal) (hab : a ≠ b) :
    (h.set a v).get b = h.get b :=
  List.getElem?_set_ne hab

/-- Mutating a heap cell no store reference points at leaves every
store-visible value unchanged. -/
theorem storeView_set_of_not_ref (h : Heap) (st : HStore) (aU : ℕ) (v : HVal)
    (h1 : ∀ a : ℕ, st.currentDataRef = some a → a ≠ aU)
    (h2 : ∀ a : ℕ, st.lastPredictionRef = some a → a ≠ aU)
    (h3 : ∀ a ∈ st.chartRefs, a ≠ aU) :
    storeView (h.set aU v) st = storeView h st := by
  unfold storeView
  have c1 : st.currentDataRef.bind (h.set aU v).get = st.currentDataRef.bind h.get := by
    cases hc : st.currentDataRef with
    | none => rfl
    | some a => exact Heap_get_set_ne h aU a v (fun he => h1 a hc he.symm)
  have c2 : st.lastPredictionRef.bind (h.set aU v).get =
      st.lastPredictionRef.bind h.get := by
    cases hc : st.lastPredictionRef with
    | none => rfl
    | some a => exact Heap_get_set_ne h aU a v (fun he => h2 a hc he.symm)
  have c3 : st.chartRefs.map (h.set aU v).get = st.chartRefs.map h.get := by
    apply List.map_congr_left
    intro a ha
    exact Heap_get_set_ne h aU a v (fun he => h3 a ha he.symm)
  rw [c1, c2, c3]

/-- C9 counterexample: the `dataLoaded` payload is the very object stored
as `currentData` (both are heap address 0 here), so a handler mutating the
received payload changes the store's current state — payloads published on
the bus are not copies. -/
theorem C9_payload_counterexample :
    demoLoadH.2.2 = [HEvent.dataLoaded 0] ∧
    storeView (demoLoadH.1.set 0 (HVal.dataObj mutatedData)) demoLoadH.2.1 ≠
      storeView demoLoadH.1 demoLoadH.2.1 := by
  refine ⟨rfl, ?_⟩
  intro hEq
  have h1 : storeView (demoLoadH.1.set 0 (HVal.dataObj mutatedData)) demoLoadH.2.1 =
      (some (HVal.dataObj mutatedData), none, []) := rfl
  have h2 : storeView demoLoadH.1 demoLoadH.2.1 =
      (some (HVal.dataObj demoData), none, []) := rfl
  rw [h1, h2] at hEq
  have h3 : mutatedData = demoData :=
    HVal.dataObj.inj (Option.some.inj (Prod.ext_iff.mp hEq).1)
  have h4 : mutatedData.currentPrice = demoData.currentPrice := by rw [h3]
  have h5 : (0 : ℚ) = 913890 / 100 := h4
  norm_num at h5

/-- C9 (amended): the `priceUpdate` payload is a fresh object the store
never references (mutating it leaves every store-visible value unchanged),
and `chartUpdate` publishes a fresh `slice()` array; but the `dataLoaded`
and `predictionComplete` payloads are the store's own `currentData` and
`lastPrediction` objects, and the `chartUpdate` array shares its point
objects with the store's chart (the copy is shallow), so mutating those
received payloads alters the store's state. -/
theorem C9_payload_amended :
    (∀ (h : Heap) (st : HStore) (today : ℤ) (rs : ℕ → ℚ),
      (loadH h st today rs).2.2 = [HEvent.dataLoaded h.cells.length] ∧
      (loadH h st today rs).2.1.currentDataRef = some h.cells.length) ∧
    (∀ (h : Heap) (st : HStore) (a b c d e : ℚ) (ts : ℤ),
      (completePredictionH h st a b c d e ts).2.2 =
        [HEvent.predictionComplete h.cells.length] ∧
      (completePredictionH h st a b c d e ts).2.1.lastPredictionRef =
        some h.cells.length) ∧
    (∀ (h : Heap) (st : HStore) (r : ℚ) (ts : ℤ) (aD : ℕ) (d0 : DashboardData),
      st.currentDataRef = some aD → h.get aD = some (HVal.dataObj d0) →
      (tickH h st r ts).2.2 = [HEvent.priceUpdate (h.cells.length + 2),
        HEvent.chartUpdate (tickH h st r ts).2.1.chartRefs]) ∧
    (∀ (h : Heap) (st : HStore) (r : ℚ) (ts : ℤ) (aD : ℕ) (d0 : DashboardData),
      st.currentDataRef = some aD → h.get aD = some (HVal.dataObj d0) →
      (∀ a ∈ st.chartRefs, a < h.cells.length) →
      (∀ a : ℕ, st.lastPredictionRef = some a → a < h.cells.length) →
      ∀ v : HVal,
        storeView ((tickH h st r ts).1.set (h.cells.length + 2) v)
            (tickH h st r ts).2.1 =
          storeView (tickH h st r ts).1 (tickH h st r ts).2.1) := by
  refine ⟨?_, ?_, ?_, ?_⟩
  · intro h st today rs
    exact ⟨rfl, rfl⟩
  · intro h st a b c d e ts
    exact ⟨rfl, rfl⟩
  · intro h st r ts aD d0 hcd hget
    simp only [tickH, hcd, hget]
    simp [Heap.alloc]
  · intro h st r ts aD d0 hcd hget hwfChart hwfPred v
    have hcr : (tickH h st r ts).2.1.currentDataRef = some h.cells.length := by
      simp [tickH, hcd, hget, Heap.alloc]
    have hlp : (tickH h st r ts).2.1.lastPredictionRef = st.lastPredictionRef := by
      simp [tickH, hcd, hget]
    have hchart : ∀ a ∈ (tickH h st r ts).2.1.chartRefs, a < h.cells.length + 2 := by
      simp only [tickH, hcd, hget, Heap.alloc, List.length_append,
        List.length_singleton]
      intro a ha
      have ha2 : a ∈ st.chartRefs ++ [h.cells.length + 1] := by
        split at ha
        · exact List.mem_of_mem_tail ha
        · exact ha
      rcases List.mem_append.mp ha2 with hmem | hmem
      · have := hwfChart a hmem
        omega
      · rw [List.mem_singleton.mp hmem]
        omega
    apply storeView_set_of_not_ref
    · intro a ha
      rw [hcr] at ha
      have := Option.some.inj ha
      omega
    · intro a ha
      rw [hlp] at ha
      have := hwfPred a ha
      omega
    · intro a ha
      have := hchart a ha
      omega

/-- Witness for `C9_payload_amended`: its tick clauses applied to the
concrete post-load heap configuration, with a concrete mutation value. -/
theorem C9_payload_amended_witness :
    ((tickH demoLoadH.1 demoLoadH.2.1 (1/2) 9).2.2 =
      [HEvent.priceUpdate (demoLoadH.1.cells.length + 2),
       HEvent.chartUpdate (tickH demoLoadH.1 demoLoadH.2.1 (1/2) 9).2.1.chartRefs]) ∧
    (storeView ((tickH demoLoadH.1 demoLoadH.2.1 (1/2) 9).1.set
          (demoLoadH.1.cells.length + 2) (HVal.pointObj { timestamp := 0, price := 0 }))
        (tickH demoLoadH.1 demoLoadH.2.1 (1/2) 9).2.1 =
      storeView (tickH demoLoadH.1 demoLoadH.2.1 (1/2) 9).1
        (tickH demoLoadH.1 demoLoadH.2.1 (1/2) 9).2.1) :=
  ⟨C9_payload_amended.2.2.1 demoLoadH.1 demoLoadH.2.1 (1/2) 9 0 demoData rfl rfl,
   C9_payload_amended.2.2.2 demoLoadH.1 demoLoadH.2.1 (1/2) 9 0 demoData rfl rfl
     (by simp [demoLoadH, loadH, hStore0])
     (fun a ha => Option.noConfusion ha)
     (HVal.pointObj { timestamp := 0, price := 0 })⟩

/-! ## Load frame conditions -/

/-- A single step can only extend the chart with that step's own
generated point. -/
theorem step_chart_mem (s : DashState) (op : Op) :
    ∀ pt ∈ (stepOp s op).1.priceChartData,
      pt ∈ s.priceChartData ∨ pt ∈ genHead s op := by
  cases op with
  | load today rs =>
      exact fun pt hpt => Or.inl hpt
  | startPredict =>
      rcases s with ⟨chart, cd, il, lp, pp⟩
      cases il <;> exact fun pt hpt => Or.inl hpt
  | completePredict a b c d e ts =>
      rcases s with ⟨chart, cd, il, lp, pp⟩
      cases pp <;> exact fun pt hpt => Or.inl hpt
  | tick r ts =>
      rcases s with ⟨chart, cd, il, lp, pp⟩
      cases cd with
      | none => exact fun pt hpt => Or.inl hpt
      | some d =>
          intro pt hpt
          simp only [stepOp, simulatePriceUpdate] at hpt
          have h1 : pt ∈ chart ++
              [{ timestamp := ts, price := d.currentPrice + (r - 1/2) * 10 }] := by
            split at hpt
            · exact List.mem_of_mem_tail hpt
            · exact hpt
          rcases List.mem_append.mp h1 with h | h
          · exact Or.inl h
          · right
            simp only [genHead]
            exact h

/-- The only `chartUpdate` a step can emit carries exactly the step's
resulting chart. -/
theorem step_events_chartUpdate (s : DashState) (op : Op) (hst : List PricePoint)
    (h : Event.chartUpdate hst ∈ (stepOp s op).2) :
    hst = (stepOp s op).1.priceChartData := by
  cases op with
  | load today rs =>
      simp only [stepOp, loadDashboardData, List.mem_singleton] at h
      exact Event.noConfusion h
  | startPredict =>
      rcases s with ⟨chart, cd, il, lp, pp⟩
      cases il with
      | true => exact absurd h (List.not_mem_nil _)
      | false =>
          simp [stepOp, runPredictionStart] at h
  | completePredict a b c d e ts =>
      rcases s with ⟨chart, cd, il, lp, pp⟩
      cases pp with
      | zero => exact absurd h (List.not_mem_nil _)
      | succ n =>
          simp [stepOp, completePrediction] at h
  | tick r ts =>
      rcases s with ⟨chart, cd, il, lp, pp⟩
      cases cd with
      | none => exact absurd h (List.not_mem_nil _)
      | some d =>
          simp only [stepOp, simulatePriceUpdate, List.mem_cons, List.mem_singleton,
            List.not_mem_nil, or_false] at h
          rcases h with h | h
          · exact Event.noConfusion h
          · exact Event.chartUpdate.inj h

/-- Every point carried by a `chartUpdate` event along a run either was
already in the chart or was generated by one of the run's steps. -/
theorem chartUpdate_mem_run (ops : List Op) :
    ∀ (s : DashState) (hst : List PricePoint),
      Event.chartUpdate hst ∈ (run s ops).2 →
      ∀ pt ∈ hst, pt ∈ s.priceChartData ∨ pt ∈ genPoints s ops := by
  induction ops with
  | nil =>
      intro s hst h
      exact absurd h (List.not_mem_nil _)
  | cons op rest ih =>
      intro s hst h pt hpt
      rw [run_cons_events] at h
      rcases List.mem_append.mp h with h | h
      · have hh : hst = (stepOp s op).1.priceChartData :=
          step_events_chartUpdate s op hst h
        subst hh
        rcases step_chart_mem s op pt hpt with h2 | h2
        · exact Or.inl h2
        · right
          rw [genPoints]
          exact List.mem_append.mpr (Or.inl h2)
      · rcases ih (stepOp s op).1 hst h pt hpt with h2 | h2
        · rcases step_chart_mem s op pt h2 with h3 | h3
          · exact Or.inl h3
          · right
            rw [genPoints]
            exact List.mem_append.mpr (Or.inl h3)
        · right
          rw [genPoints]
          exact List.mem_append.mpr (Or.inr h2)

/-- C10: a load modifies only the current snapshot and the busy flag —
the chart history, the last prediction and the pending-timer count are
untouched; the freshly generated 30-point initial history is stored only
inside the snapshot; and every point any `chartUpdate` event publishes
along any run from process start was generated by a tick step, so
load-generated points never enter the published chart history. -/
theorem C10_load_frame :
    (∀ (s : DashState) (today : ℤ) (rs : ℕ → ℚ),
      (stepOp s (Op.load today rs)).1.priceChartData = s.priceChartData ∧
      (stepOp s (Op.load today rs)).1.lastPrediction = s.lastPrediction ∧
      (stepOp s (Op.load today rs)).1.pendingPredictions = s.pendingPredictions ∧
      (stepOp s (Op.load today rs)).1.currentData = some (mkMockData today rs) ∧
      (mkMockData today rs).historicalPrices.length = 30) ∧
    (∀ (ops : List Op) (hst : List PricePoint),
      Event.chartUpdate hst ∈ (run initState ops).2 →
      ∀ pt ∈ hst, pt ∈ genPoints initState ops) := by
  constructor
  · intro s today rs
    refine ⟨rfl, rfl, rfl, rfl, ?_⟩
    simp [mkMockData, generateHistoricalData]
  · intro ops hst h pt hpt
    rcases chartUpdate_mem_run ops initState hst h pt hpt with h2 | h2
    · exact absurd h2 (List.not_mem_nil pt)
    · exact h2

/-- Witness for `C10_load_frame`: along the concrete run load-then-tick,
the single published chart point comes from the tick step. -/
theorem C10_load_frame_witness :
    ({ timestamp := 5, price := 913890/100 + ((1 : ℚ)/2 - 1/2) * 10 } : PricePoint) ∈
      genPoints initState [Op.load 0 fun _ => 0, Op.tick (1/2) 5] :=
  C10_load_frame.2 [Op.load 0 fun _ => 0, Op.tick (1/2) 5]
    [{ timestamp := 5, price := 913890/100 + ((1 : ℚ)/2 - 1/2) * 10 }]
    (List.mem_cons_of_mem _ (List.mem_cons_of_mem _ (List.mem_cons_self _ _)))
    _ (List.mem_cons_self _ _)
